import Mathlib

/-!
Verification development for the client-side agent-stream pipeline of the
`iris` repository.  The definitions below are shallow embeddings of the
TypeScript source: the stream transport (`streamAgent` / `stopAgent` and the
`EventSource.onmessage` handler in `src/unnamed/part_006`), the message store
(`updateMessage` / `clear` in `src/frontend/src/hooks/useAgentRun.ts`), the
message normalizer (`normalizeMessage` in the same file), the tool event model
(`getToolModel` in `src/unnamed/part_011`), and the share-replay page
(`skipToMessage` / `parseAttachments` in
`src/frontend/src/app/share/[threadId]/page.tsx`).

JavaScript dynamic values are modelled by `JsVal`; `undefined` is modelled as
`Option.none` at every use site.  Platform builtins (`JSON.parse`,
`JSON.stringify`, `String.prototype.includes`, regular-expression scans) are
modelled by executable Lean functions with standard semantics.  `JsVal` is a
mutual inductive (rather than one nested in `List`) so that all functions on
it are structurally recursive and reduce inside the kernel.
-/

namespace Iris

mutual

/-- Model of a JavaScript runtime value.  `undefined` is represented by
`Option.none` wherever a value may be absent; `vObj` keeps the own enumerable
string-keyed properties in insertion order (JavaScript objects have no
duplicate keys). -/
inductive JsVal where
  | vNull
  | vBool (b : Bool)
  | vNum (q : ℚ)
  | vStr (s : String)
  | vArr (xs : JsArr)
  | vObj (fs : JsFields)

/-- Elements of a JavaScript array. -/
inductive JsArr where
  | anil
  | acons (v : JsVal) (rest : JsArr)

/-- Own enumerable properties of a JavaScript object, in insertion order. -/
inductive JsFields where
  | fnil
  | fcons (k : String) (v : JsVal) (rest : JsFields)

end

/-- Build an object value from an association list (convenience for
witnesses and for the JSON parser). -/
def JsFields.ofList : List (String × JsVal) → JsFields
  | [] => .fnil
  | (k, v) :: rest => .fcons k v (JsFields.ofList rest)

def JsArr.ofList : List JsVal → JsArr
  | [] => .anil
  | v :: rest => .acons v (JsArr.ofList rest)

def JsVal.obj (l : List (String × JsVal)) : JsVal := .vObj (JsFields.ofList l)

def JsVal.arr (l : List JsVal) : JsVal := .vArr (JsArr.ofList l)

/-- First-match association lookup on object properties. -/
def JsFields.lookup : JsFields → String → Option JsVal
  | .fnil, _ => none
  | .fcons k v rest, key => if k = key then some v else JsFields.lookup rest key

def JsFields.hasKey : JsFields → String → Bool
  | .fnil, _ => false
  | .fcons k _ rest, key => k = key || JsFields.hasKey rest key

/-- Property access `v.k` on a JavaScript value.  On primitives it yields
`undefined`; access on `null`/`undefined` would throw in JavaScript, but every
call site in the embedded source is guarded so that the scrutinee is never
`null` at a bare access (optional-chain accesses go through `jsGetOpt`). -/
def jsGet (v : JsVal) (k : String) : Option JsVal :=
  match v with
  | .vObj fields => fields.lookup k
  | _ => none

/-- Optional-chain access `v?.k`: `undefined`/`null` propagate to `undefined`. -/
def jsGetOpt (v : Option JsVal) (k : String) : Option JsVal :=
  match v with
  | none => none
  | some x => jsGet x k

/-- JavaScript truthiness of a value. -/
def jsTruthy : JsVal → Bool
  | .vNull => false
  | .vBool b => b
  | .vNum q => !(q = 0)
  | .vStr s => !(s = "")
  | .vArr _ => true
  | .vObj _ => true

/-- Truthiness of a possibly-`undefined` value. -/
def jsTruthyOpt : Option JsVal → Bool
  | none => false
  | some v => jsTruthy v

/-- The JavaScript `x || y` operator on possibly-`undefined` values. -/
def jsOrOpt (x y : Option JsVal) : Option JsVal :=
  if jsTruthyOpt x then x else y

/-- Strict equality `v === "lit"` against a string literal. -/
def jsEqStrOpt (v : Option JsVal) (s : String) : Bool :=
  match v with
  | some (.vStr t) => t = s
  | _ => false

/-- `v === false` (strict). -/
def jsIsFalse : Option JsVal → Bool
  | some (.vBool false) => true
  | _ => false

/-- `v.hasOwnProperty k` for the values reachable in the embedded code
(objects; primitives box to objects without such a property). -/
def jsHasKey (v : JsVal) (k : String) : Bool :=
  match v with
  | .vObj fields => fields.hasKey k
  | _ => false

/-- `typeof v === "object"` (true for objects, arrays and `null`). -/
def isObjectLike : JsVal → Bool
  | .vObj _ => true
  | .vArr _ => true
  | .vNull => true
  | _ => false

def isObjectLikeOpt : Option JsVal → Bool
  | some v => isObjectLike v
  | none => false

/-- Remove the literal `p` from the front of `s`, if present. -/
def stripLit : List Char → List Char → Option (List Char)
  | [], s => some s
  | _ :: _, [] => none
  | p :: ps, c :: cs => if p = c then stripLit ps cs else none

/-- Substring search used to model `String.prototype.includes`. -/
def charsHasSub (sub : List Char) : List Char → Bool
  | [] => (stripLit sub []).isSome
  | l@(_ :: rest) => (stripLit sub l).isSome || charsHasSub sub rest

/-- `s.includes(sub)`. -/
def strIncludes (s sub : String) : Bool :=
  charsHasSub sub.toList s.toList

/-- `s.startsWith(p)`. -/
def jsStartsWith (s p : String) : Bool :=
  (stripLit p.toList s.toList).isSome

/-- `s.trim()`: strip leading and trailing whitespace. -/
def jsTrim (s : String) : String :=
  String.mk (((s.toList.dropWhile Char.isWhitespace).reverse.dropWhile Char.isWhitespace).reverse)

/-- Replace the first occurrence of character `a` by `b`
(`String.prototype.replace` with a string pattern replaces only the first
occurrence). -/
def replaceFirstChar (s : String) (a b : Char) : String :=
  let rec go : List Char → List Char
    | [] => []
    | c :: rest => if c = a then b :: rest else c :: go rest
  String.mk (go s.toList)

/-- JSON string escaping as performed by `JSON.stringify` (control characters
other than the common escapes do not occur in the values handled here). -/
def escapeJsonChar (c : Char) : String :=
  if c = '"' then "\\\""
  else if c = '\\' then "\\\\"
  else if c = '\n' then "\\n"
  else if c = '\r' then "\\r"
  else if c = '\t' then "\\t"
  else String.mk [c]

def escapeJsonString (s : String) : String :=
  "\"" ++ String.join (s.toList.map escapeJsonChar) ++ "\""

/-- Decimal rendering of a JSON number; the embedded claims never inspect the
textual form of non-integer numbers. -/
def ratToJsonString (q : ℚ) : String :=
  if q.den = 1 then toString q.num else toString q

mutual

/-- Model of `JSON.stringify` on defined values (`JSON.stringify(undefined)`
is handled at call sites, which return `undefined`). -/
def jsonStringify : JsVal → String
  | .vNull => "null"
  | .vBool true => "true"
  | .vBool false => "false"
  | .vNum q => ratToJsonString q
  | .vStr s => escapeJsonString s
  | .vArr xs => "[" ++ jsonStringifyArr xs ++ "]"
  | .vObj fs => "\x7b" ++ jsonStringifyFields fs ++ "\x7d"

def jsonStringifyArr : JsArr → String
  | .anil => ""
  | .acons v .anil => jsonStringify v
  | .acons v rest => jsonStringify v ++ "," ++ jsonStringifyArr rest

def jsonStringifyFields : JsFields → String
  | .fnil => ""
  | .fcons k v .fnil => escapeJsonString k ++ ":" ++ jsonStringify v
  | .fcons k v rest => escapeJsonString k ++ ":" ++ jsonStringify v ++ "," ++ jsonStringifyFields rest

end

/-- `JSON.stringify` lifted to possibly-`undefined` values
(`JSON.stringify(undefined)` evaluates to `undefined`). -/
def jsonStringifyOpt (v : Option JsVal) : Option JsVal :=
  v.map (fun x => .vStr (jsonStringify x))

mutual

/-- The `String(v)` coercion applied by `JSON.parse` to a non-string
argument. -/
def jsToString : JsVal → String
  | .vNull => "null"
  | .vBool true => "true"
  | .vBool false => "false"
  | .vNum q => ratToJsonString q
  | .vStr s => s
  | .vArr xs => jsToStringArr xs
  | .vObj _ => "[object Object]"

def jsToStringArr : JsArr → String
  | .anil => ""
  | .acons v .anil => jsToString v
  | .acons v rest => jsToString v ++ "," ++ jsToStringArr rest

end

def isJsonWs (c : Char) : Bool :=
  c = ' ' || c = '\n' || c = '\t' || c = '\r'

def hexDigitVal (c : Char) : Option Nat :=
  if '0' ≤ c ∧ c ≤ '9' then some (c.toNat - 48)
  else if 'a' ≤ c ∧ c ≤ 'f' then some (c.toNat - 87)
  else if 'A' ≤ c ∧ c ≤ 'F' then some (c.toNat - 55)
  else none

/-- Parse the body of a JSON string literal (after the opening quote),
returning the decoded string and the input remaining after the closing
quote. -/
def parseJString : List Char → Option (String × List Char)
  | [] => none
  | c :: rest =>
    if c = '"' then some ("", rest)
    else if c = '\\' then
      match rest with
      | 'n' :: r => (parseJString r).map (fun p => (String.mk ['\n'] ++ p.1, p.2))
      | 't' :: r => (parseJString r).map (fun p => (String.mk ['\t'] ++ p.1, p.2))
      | 'r' :: r => (parseJString r).map (fun p => (String.mk ['\r'] ++ p.1, p.2))
      | 'b' :: r => (parseJString r).map (fun p => (String.mk [Char.ofNat 8] ++ p.1, p.2))
      | 'f' :: r => (parseJString r).map (fun p => (String.mk [Char.ofNat 12] ++ p.1, p.2))
      | '/' :: r => (parseJString r).map (fun p => ("/" ++ p.1, p.2))
      | '"' :: r => (parseJString r).map (fun p => ("\"" ++ p.1, p.2))
      | '\\' :: r => (parseJString r).map (fun p => ("\\" ++ p.1, p.2))
      | 'u' :: h1 :: h2 :: h3 :: h4 :: r =>
        match hexDigitVal h1, hexDigitVal h2, hexDigitVal h3, hexDigitVal h4 with
        | some a, some b, some cc, some d =>
          (parseJString r).map
            (fun p => (String.mk [Char.ofNat (((a * 16 + b) * 16 + cc) * 16 + d)] ++ p.1, p.2))
        | _, _, _, _ => none
      | _ => none
    else if c.toNat < 32 then none
    else (parseJString rest).map (fun p => (String.mk [c] ++ p.1, p.2))

def digitsToNat (ds : List Char) : Nat :=
  ds.foldl (fun a c => a * 10 + (c.toNat - 48)) 0

/-- Parse a JSON number (strict grammar: no leading zeros, a fractional part
or exponent requires digits). -/
def parseNumber (l : List Char) : Option (ℚ × List Char) :=
  let (neg, l1) := match l with
    | '-' :: r => (true, r)
    | _ => (false, l)
  let intDigits := l1.takeWhile Char.isDigit
  if intDigits.isEmpty then none
  else if intDigits.length > 1 ∧ intDigits.head? = some '0' then none
  else
    let l2 := l1.drop intDigits.length
    let fracDigits := match l2 with
      | '.' :: r => r.takeWhile Char.isDigit
      | _ => []
    let hadDot := match l2 with
      | '.' :: _ => true
      | _ => false
    if hadDot ∧ fracDigits.isEmpty then none
    else
      let l3 := if hadDot then (l2.drop 1).drop fracDigits.length else l2
      let expPart : Option (Bool × List Char × List Char) :=
        match l3 with
        | 'e' :: r | 'E' :: r =>
          let (en, r2) := match r with
            | '-' :: rr => (true, rr)
            | '+' :: rr => (false, rr)
            | _ => (false, r)
          let ed := r2.takeWhile Char.isDigit
          if ed.isEmpty then none else some (en, ed, r2.drop ed.length)
        | _ => some (false, [], l3)
      match expPart with
      | none => none
      | some (expNeg, expDigits, l4) =>
        -- value = mantissa · 10^exponent, computed as a single exact rational
        let mantissaNum : Nat := digitsToNat intDigits * 10 ^ fracDigits.length + digitsToNat fracDigits
        let e := digitsToNat expDigits
        let num : Nat := if expNeg then mantissaNum else mantissaNum * 10 ^ e
        let den : Nat := if expNeg then 10 ^ fracDigits.length * 10 ^ e else 10 ^ fracDigits.length
        let value : ℚ := mkRat (if neg then -(num : ℤ) else (num : ℤ)) den
        some (value, l4)

mutual

/-- Fueled recursive-descent parser for a JSON value; the fuel strictly
exceeds the number of recursive steps needed by any input that parses. -/
def parseValueFuel : Nat → List Char → Option (JsVal × List Char)
  | 0, _ => none
  | fuel + 1, input =>
    let l := input.dropWhile isJsonWs
    match l with
    | 'n' :: 'u' :: 'l' :: 'l' :: r => some (.vNull, r)
    | 't' :: 'r' :: 'u' :: 'e' :: r => some (.vBool true, r)
    | 'f' :: 'a' :: 'l' :: 's' :: 'e' :: r => some (.vBool false, r)
    | '"' :: r => (parseJString r).map (fun p => (.vStr p.1, p.2))
    | '[' :: r =>
      match r.dropWhile isJsonWs with
      | ']' :: r2 => some (.vArr .anil, r2)
      | _ =>
        match parseElemsFuel fuel r with
        | some (xs, rest) => some (.vArr (JsArr.ofList xs), rest)
        | none => none
    | '\x7b' :: r =>
      match r.dropWhile isJsonWs with
      | '\x7d' :: r2 => some (.vObj .fnil, r2)
      | _ =>
        match parseMembersFuel fuel r with
        | some (fs, rest) => some (.vObj (JsFields.ofList fs), rest)
        | none => none
    | _ => (parseNumber l).map (fun p => (.vNum p.1, p.2))

def parseElemsFuel : Nat → List Char → Option (List JsVal × List Char)
  | 0, _ => none
  | fuel + 1, l =>
    match parseValueFuel fuel l with
    | some (v, rest) =>
      match rest.dropWhile isJsonWs with
      | ',' :: r2 => (parseElemsFuel fuel r2).map (fun p => (v :: p.1, p.2))
      | ']' :: r2 => some ([v], r2)
      | _ => none
    | none => none

def parseMembersFuel : Nat → List Char → Option (List (String × JsVal) × List Char)
  | 0, _ => none
  | fuel + 1, l =>
    match l.dropWhile isJsonWs with
    | '"' :: r =>
      match parseJString r with
      | some (k, r1) =>
        match r1.dropWhile isJsonWs with
        | ':' :: r3 =>
          match parseValueFuel fuel r3 with
          | some (v, r4) =>
            match r4.dropWhile isJsonWs with
            | ',' :: r6 => (parseMembersFuel fuel r6).map (fun p => ((k, v) :: p.1, p.2))
            | '\x7d' :: r6 => some ([(k, v)], r6)
            | _ => none
          | none => none
        | _ => none
      | none => none
    | _ => none

end

/-- Model of `JSON.parse`: `none` models the `SyntaxError` throw. -/
def jsonParse (s : String) : Option JsVal :=
  match parseValueFuel (s.length * 2 + 4) s.toList with
  | some (v, rest) => if (rest.dropWhile isJsonWs).isEmpty then some v else none
  | none => none

/-! ## Stream Transport (`src/unnamed/part_006`)

The module-level registries `activeStreams : Map<string, EventSource>` and
`nonRunningAgentRuns : Set<string>` are modelled by `TransportState`; an
`EventSource` value carries no information relevant to the claims, so
`activeStreams` keeps only its key set.  Callback invocations and the
construction of `EventSource` objects are recorded in explicit event
records. -/

/-- The two module-level registries of `part_006` (lines 6 and 9). -/
structure TransportState where
  activeStreams : List String
  nonRunningAgentRuns : List String
  deriving DecidableEq

/-- `Set.add` / `Map.set` with set semantics on a key list. -/
def setInsert (l : List String) (x : String) : List String :=
  if x ∈ l then l else l ++ [x]

/-- Observable effects of one invocation of the `eventSource.onmessage`
handler. -/
structure MsgAction where
  /-- `(window as any).lastStreamMessage = Date.now()` was executed. -/
  activityBumped : Bool
  /-- arguments of the `callbacks.onMessage` calls made. -/
  forwarded : List String
  /-- arguments of the `callbacks.onError` calls made. -/
  errors : List String
  /-- `eventSource.close()` was called (with the matching
  `activeStreams.delete`). -/
  closedStream : Bool
  /-- `callbacks.onClose()` was called. -/
  onCloseCalled : Bool
  deriving DecidableEq

/-- Embedding of the `eventSource.onmessage` handler installed by
`streamAgent` (`part_006`, lines 615-699).  `rawData` is `event.data`; the
returned state reflects the updates to the two registries. -/
def onStreamMessage (st : TransportState) (agentRunId : String) (rawData : String) :
    TransportState × MsgAction :=
  -- lines 617-622: bump the liveness timestamp; swallow heartbeats
  if strIncludes rawData "\"type\":\"ping\"" then
    (st, { activityBumped := true, forwarded := [], errors := [],
           closedStream := false, onCloseCalled := false })
  -- lines 627-631: skip empty messages
  else if rawData = "" ∨ jsTrim rawData = "" then
    (st, { activityBumped := true, forwarded := [], errors := [],
           closedStream := false, onCloseCalled := false })
  -- lines 633-649: explicit "run not found" signal
  else if strIncludes rawData "Agent run" && strIncludes rawData "not found in active runs" then
    ({ activeStreams := st.activeStreams.erase agentRunId,
       nonRunningAgentRuns := setInsert st.nonRunningAgentRuns agentRunId },
     { activityBumped := true, forwarded := [],
       errors := ["Agent run not found in active runs"],
       closedStream := true, onCloseCalled := true })
  -- lines 651-672: completion status message
  else if strIncludes rawData "\"type\":\"status\"" && strIncludes rawData "\"status\":\"completed\"" then
    let isFinal := strIncludes rawData "Run data not available for streaming"
      || strIncludes rawData "Stream ended with status: completed"
    ({ activeStreams := st.activeStreams.erase agentRunId,
       nonRunningAgentRuns :=
         if isFinal then setInsert st.nonRunningAgentRuns agentRunId
         else st.nonRunningAgentRuns },
     { activityBumped := true, forwarded := [rawData], errors := [],
       closedStream := true, onCloseCalled := true })
  -- lines 674-690: thread run end message
  else if strIncludes rawData "\"type\":\"status\"" && strIncludes rawData "\"status_type\":\"thread_run_end\"" then
    ({ activeStreams := st.activeStreams.erase agentRunId,
       nonRunningAgentRuns := setInsert st.nonRunningAgentRuns agentRunId },
     { activityBumped := true, forwarded := [rawData], errors := [],
       closedStream := true, onCloseCalled := true })
  -- lines 692-693: all other messages pass through
  else
    (st, { activityBumped := true, forwarded := [rawData], errors := [],
           closedStream := false, onCloseCalled := false })

/-- Observable effects of one `streamAgent` call up to the construction of
the `EventSource`. -/
structure StartEvents where
  /-- a pre-existing stream for the same run id was closed first. -/
  closedExisting : Bool
  /-- `new EventSource(url)` was executed. -/
  createdEventSource : Bool
  errors : List String
  onCloseCalled : Bool
  deriving DecidableEq

/-- Embedding of `streamAgent` (`part_006`, lines 568-611): close any
pre-existing stream for the run id, then `setupStream` fetches a session and
opens a fresh `EventSource`.  `hasToken` abstracts
`session?.access_token` being available.  The single-threaded `async`
`setupStream` is modelled as running to the point where the `EventSource` is
registered.  Note that `nonRunningAgentRuns` is never consulted (the source
comment at line 576 reads "Skip preflight status checks to reduce
latency"). -/
def streamAgent (st : TransportState) (agentRunId : String) (hasToken : Bool) :
    TransportState × StartEvents :=
  -- lines 579-584
  let hadExisting := agentRunId ∈ st.activeStreams
  let st1 := if hadExisting then
      { st with activeStreams := st.activeStreams.erase agentRunId } else st
  -- lines 588-608
  if hasToken then
    ({ st1 with activeStreams := setInsert st1.activeStreams agentRunId },
     { closedExisting := hadExisting, createdEventSource := true,
       errors := [], onCloseCalled := false })
  else
    (st1,
     { closedExisting := hadExisting, createdEventSource := false,
       errors := ["Authentication required"], onCloseCalled := true })

/-- Observable effects of one `stopAgent` call. -/
structure StopEvents where
  /-- an existing stream for the run id was closed. -/
  closedStream : Bool
  /-- the remote `POST /api/agent-run/:id/stop` request was issued. -/
  remoteStopIssued : Bool
  /-- the error thrown, if any. -/
  threw : Option String
  deriving DecidableEq

/-- Embedding of `stopAgent` (`part_006`, lines 449-481): insert into the
terminal set first, close any existing stream, then unconditionally issue the
remote stop request.  `hasToken` abstracts `session?.access_token`;
`responseOk` abstracts `response.ok`. -/
def stopAgent (st : TransportState) (agentRunId : String)
    (hasToken responseOk : Bool) : TransportState × StopEvents :=
  -- lines 450-451
  let st1 := { st with nonRunningAgentRuns := setInsert st.nonRunningAgentRuns agentRunId }
  -- lines 453-459
  let hadStream := agentRunId ∈ st1.activeStreams
  let st2 := if hadStream then
      { st1 with activeStreams := st1.activeStreams.erase agentRunId } else st1
  -- lines 461-480
  if ¬ hasToken then
    (st2, { closedStream := hadStream, remoteStopIssued := false,
            threw := some "No access token available" })
  else if ¬ responseOk then
    (st2, { closedStream := hadStream, remoteStopIssued := true,
            threw := some "Error stopping agent" })
  else
    (st2, { closedStream := hadStream, remoteStopIssued := true, threw := none })

/-! ## Replay engine (`src/frontend/src/app/share/[threadId]/page.tsx`)

The share page drives playback with React state; the state variables are
collected in `PlaybackState`.  The attachment regex
`/\[Uploaded File: (.*?)\]/g` is embedded as a left-to-right scan: at each
position the literal opener must match, followed by a lazy run of
non-newline characters up to the first `]` (`.` does not match newlines). -/

/-- The literal opener of an attachment marker. -/
def markerOpen : List Char := "[Uploaded File: ".toList

/-- Lazy payload scan for `(.*?)\]`: the characters up to the first `]`,
failing on a newline (the regex dot) or end of input. -/
def readPayload : List Char → Option (List Char × List Char)
  | [] => none
  | c :: rest =>
    if c = ']' then some ([], rest)
    else if c = '\n' then none
    else
      match readPayload rest with
      | some (p, r) => some (c :: p, r)
      | none => none

theorem readPayload_length {l p r} (h : readPayload l = some (p, r)) :
    r.length < l.length := by
  induction l generalizing p r with
  | nil => simp [readPayload] at h
  | cons c rest ih =>
    unfold readPayload at h
    by_cases hc : c = ']'
    · rw [if_pos hc] at h
      simp only [Option.some.injEq, Prod.mk.injEq] at h
      obtain ⟨-, hr⟩ := h
      subst hr
      simp
    · rw [if_neg hc] at h
      by_cases hn : c = '\n'
      · rw [if_pos hn] at h
        exact absurd h (by simp)
      · rw [if_neg hn] at h
        cases hrec : readPayload rest with
        | none => rw [hrec] at h; simp at h
        | some pr =>
          obtain ⟨p0, r0⟩ := pr
          rw [hrec] at h
          simp only [Option.some.injEq, Prod.mk.injEq] at h
          obtain ⟨-, hr⟩ := h
          subst hr
          have := ih hrec
          simp only [List.length_cons]
          omega

theorem stripLit_length {p l r : List Char} (h : stripLit p l = some r) :
    r.length + p.length = l.length := by
  induction p generalizing l with
  | nil => simp [stripLit] at h; simp [h]
  | cons c cs ih =>
    match l with
    | [] => simp [stripLit] at h
    | d :: ds =>
      unfold stripLit at h
      by_cases hd : c = d
      · simp [hd] at h
        have := ih h
        simp
        omega
      · simp [hd] at h

/-- One global pass of `/\[Uploaded File: (.*?)\]/g` over the character list:
returns the captured payloads (in order) and the input with every match
removed, exactly as the pair `text.match(...)` / `text.replace(..., '')`
computes it in `parseAttachments`. -/
def scanMarkers : List Char → List String × List Char
  | [] => ([], [])
  | c :: rest =>
    match hstrip : stripLit markerOpen (c :: rest) with
    | some afterOpen =>
      match hread : readPayload afterOpen with
      | some (payload, remaining) =>
        let res := scanMarkers remaining
        (String.mk payload :: res.1, res.2)
      | none =>
        let res := scanMarkers rest
        (res.1, c :: res.2)
    | none =>
      let res := scanMarkers rest
      (res.1, c :: res.2)
termination_by l => l.length
decreasing_by
  · have h1 := stripLit_length hstrip
    have h2 := readPayload_length hread
    simp at h1 ⊢
    omega
  · simp
  · simp

/-- Embedding of `parseAttachments` (share page, lines 258-265): collect the
bracketed attachment paths (dropping empty captures, as `filter(Boolean)`
does) and strip every complete marker from the displayed text. -/
def parseAttachments (text : String) : String × List String :=
  let res := scanMarkers text.toList
  (jsTrim (String.mk res.2), res.1.filter (fun p => ¬ p = ""))

/-- The playback-related React state of the share page. -/
structure PlaybackState where
  isPlaying : Bool
  currentMessageIndex : Int
  streamingText : String
  isStreamingComplete : Bool
  deriving DecidableEq

/-- `pausePlayback` (lines 172-177): stop playing and clear the reveal
timer. -/
def pausePlayback (s : PlaybackState) : PlaybackState :=
  { s with isPlaying := false }

/-- `skipToMessage` (lines 189-196) for a loaded thread with
`messagesLength` messages: pause, clamp the requested index into
`[0, messagesLength-1]`, and clear the partial-reveal state. -/
def skipToMessage (messagesLength : Nat) (index : Int) (s : PlaybackState) : PlaybackState :=
  let s1 := pausePlayback s
  { s1 with
    currentMessageIndex := max 0 (min index ((messagesLength : Int) - 1)),
    streamingText := "",
    isStreamingComplete := false }

/-- The partial reveal produced by `streamMessage` (line 146):
`message.content.substring(0, charIndex + 1)`. -/
def streamingTextAt (content : String) (charIndex : Nat) : String :=
  String.mk (content.toList.take (charIndex + 1))

/-- The text rendered for a message (lines 379-380):
`shouldShowStreaming ? streamingText : clean` where
`clean = parseAttachments(message.content).clean`. -/
def displayContent (content streamingText : String) (shouldShowStreaming : Bool) : String :=
  if shouldShowStreaming then streamingText else (parseAttachments content).1

/-! ## Message store (`src/frontend/src/hooks/useAgentRun.ts`)

`updateMessage` merges an incoming `AgentMessage` into `AgentRunState` by
`message_id` via JavaScript object spread; spread semantics over a record is
embedded as an association-list merge keyed by field name. -/

/-- An `AgentMessage`: the `message_id` key plus the remaining own
properties of the record (the spread `{...old, ...new}` operates on all of
them uniformly). -/
structure AgentMessage where
  message_id : String
  fields : List (String × JsVal)

/-- `RunState` of the hook: `byId` is the `Record<string, AgentMessage>`
(association list in insertion order, as JavaScript object keys are
ordered), `order` the insertion-ordered id list. -/
structure AgentRunState where
  byId : List (String × AgentMessage)
  order : List String
  isStreaming : Bool
  error : Option String

/-- `obj[k] = v` on a JavaScript object: replace in place if the key exists,
else append (the semantics of `{...obj, [k]: v}`). -/
def setKey {α : Type} : List (String × α) → String → α → List (String × α)
  | [], k, v => [(k, v)]
  | (k0, v0) :: rest, k, v =>
    if k0 = k then (k, v) :: rest else (k0, v0) :: setKey rest k v

/-- First-match association lookup (JavaScript property read). -/
def getKey {α : Type} : List (String × α) → String → Option α
  | [], _ => none
  | (k0, v0) :: rest, k => if k0 = k then some v0 else getKey rest k

/-- Object spread `{...old, ...new}` on the field lists: every field of
`new` overwrites or extends `old`. -/
def spreadMerge (old new : List (String × JsVal)) : List (String × JsVal) :=
  new.foldl (fun acc kv => setKey acc kv.1 kv.2) old

/-- `{...prevState.byId[id], ...message}` — if the id has no backing record
(`undefined` spread), the result is just the new message. -/
def mergeMessage (old : Option AgentMessage) (m : AgentMessage) : AgentMessage :=
  match old with
  | none => m
  | some o => { message_id := m.message_id, fields := spreadMerge o.fields m.fields }

/-- `Array.prototype.indexOf`. -/
def jsIndexOf : List String → String → Int
  | [], _ => -1
  | a :: rest, x =>
    if a = x then 0
    else
      let r := jsIndexOf rest x
      if r < 0 then -1 else r + 1

/-- Embedding of `updateMessage` (`useAgentRun.ts`, lines 33-58). -/
def updateMessage (prevState : AgentRunState) (message : AgentMessage) : AgentRunState :=
  let existingIndex := jsIndexOf prevState.order message.message_id
  if 0 ≤ existingIndex then
    -- update existing message
    { prevState with
      byId := setKey prevState.byId message.message_id
        (mergeMessage (getKey prevState.byId message.message_id) message) }
  else
    -- add new message
    { prevState with
      byId := setKey prevState.byId message.message_id message,
      order := prevState.order ++ [message.message_id] }

/-- The initial hook state (lines 21-26). -/
def initialRunState : AgentRunState :=
  { byId := [], order := [], isStreaming := false, error := none }

/-- Embedding of `clear` (lines 131-139): stop streaming and reset the whole
state (closing the stream subscription is the transport's concern and is not
part of the store state). -/
def clear (_s : AgentRunState) : AgentRunState :=
  initialRunState

/-- A message-store operation: an upsert or a clear. -/
inductive StoreOp where
  | upd (m : AgentMessage)
  | clearOp

def applyOp (s : AgentRunState) : StoreOp → AgentRunState
  | .upd m => updateMessage s m
  | .clearOp => clear s

/-- Run a sequence of store operations from the empty state. -/
def runOps (ops : List StoreOp) : AgentRunState :=
  ops.foldl applyOp initialRunState

/-! ## Message normalizer (`src/frontend/src/hooks/useAgentRun.ts`, second
module: `normalizeMessage` and its helpers)

The canonical message record.  In the TypeScript interface every field other
than `id` and `type` is optional; absence is `none`.  `id` is `JsVal`
because the canonical pass-through spreads the raw record over the result,
so a present-but-falsy raw `id` survives as-is.  Id generation
(`generateId`, `Date.now` + `Math.random`) is abstracted by the `fresh`
argument threaded through the functions; the theorems never depend on two
generated ids being distinct.  Exceptions are modelled with
`Except String`: `.error` marks a `JSON.parse` / null-property-access throw
that the annotated function does not itself catch. -/

structure NormalizedMessage where
  id : JsVal
  type : String
  content : Option JsVal := none
  _content : Option JsVal := none
  tool : Option JsVal := none
  arguments : Option JsVal := none
  output : Option JsVal := none
  success : Option JsVal := none
  error : Option JsVal := none
  status_type : Option JsVal := none
  message : Option JsVal := none
  timestamp : Option JsVal := none
  metadata : Option JsVal := none
  raw : Option JsVal := none

/-- The canonical type names of the pass-through check (line 204). -/
def canonicalTypes : List String :=
  ["user", "assistant", "tool_call", "tool_result", "tool_start", "tool_error", "status"]

/-- First match of `/<([a-zA-Z-]+)/`: scan for a `<` followed by at least
one tag character and return the maximal run. -/
def xmlTagScan : List Char → Option String
  | [] => none
  | '<' :: rest =>
    let run := rest.takeWhile (fun c => c.isAlpha || c = '-')
    if run.isEmpty then xmlTagScan rest else some (String.mk run)
  | _ :: rest => xmlTagScan rest

/-- Whitespace class of the regex `\s` (the forms relevant here). -/
def isRegexWs (c : Char) : Bool :=
  c = ' ' || c = '\t' || c = '\n' || c = '\r'

/-- Match `/"function_name":\s*"([^"]+)"/` at the head of the input. -/
def matchFuncNameAt (l : List Char) : Option String :=
  match stripLit "\"function_name\":".toList l with
  | some r =>
    match r.dropWhile isRegexWs with
    | '"' :: r3 =>
      let nm := r3.takeWhile (fun c => ¬ c = '"')
      if nm.isEmpty then none
      else if (r3.drop nm.length).isEmpty then none
      else some (String.mk nm)
    | _ => none
  | none => none

/-- First match of `/"function_name":\s*"([^"]+)"/` anywhere in the
input. -/
def funcNameScan : List Char → Option String
  | [] => none
  | l@(_ :: rest) =>
    match matchFuncNameAt l with
    | some nm => some nm
    | none => funcNameScan rest

/-- `extractToolName` falling through to the content scans
(lines 407-422): an XML-ish tag (with only the first `-` replaced by `_`,
as `String.replace` with a string pattern does), then a `function_name`
field, then the default `"unknown"`. -/
def toolNameFromContent (content : Option JsVal) : JsVal :=
  match content with
  | some (.vStr s) =>
    match xmlTagScan s.toList with
    | some tag => .vStr (replaceFirstChar tag '-' '_')
    | none =>
      match funcNameScan s.toList with
      | some fn => .vStr fn
      | none => .vStr "unknown"
  | _ => .vStr "unknown"

/-- Embedding of `extractToolName` (lines 398-423).  A string `metadata`
that fails `JSON.parse`, or one that parses to `null` (whose `.tool_name`
access throws), raises — the callers decide whether that throw is caught. -/
def extractToolName (message : JsVal) (content : Option JsVal) : Except String JsVal :=
  match jsGet message "metadata" with
  | some mv =>
    if jsTruthy mv then
      match (match mv with
             | .vStr s =>
               match jsonParse s with
               | some md => Except.ok md
               | none => Except.error "SyntaxError: JSON.parse"
             | _ => Except.ok mv) with
      | .error e => .error e
      | .ok .vNull => .error "TypeError: cannot read tool_name of null"
      | .ok md =>
        let tn := jsOrOpt (jsGet md "tool_name") (jsGet md "function_name")
        if jsTruthyOpt tn then .ok (tn.getD .vNull)
        else .ok (toolNameFromContent content)
    else .ok (toolNameFromContent content)
  | none => .ok (toolNameFromContent content)

/-- The literal opener of the tool-result wrapper regex. -/
def trOpen : List Char := "<tool_result".toList

/-- The literal closer of the tool-result wrapper regex. -/
def trClose : List Char := "</tool_result>".toList

/-- Lazy scan for the closing literal (`(.*?)<\/tool_result>` with the `s`
flag, so any character may intervene): captured characters before the first
closer, and the rest after it. -/
def findTrClose : List Char → Option (List Char × List Char)
  | [] => none
  | l@(c :: rest) =>
    match stripLit trClose l with
    | some r => some ([], r)
    | none =>
      match findTrClose rest with
      | some (cap, r) => some (c :: cap, r)
      | none => none

/-- One attempted match of `/<tool_result[^>]*>(.*?)<\/tool_result>/gs` at
the head of the input: `(fullMatch, captured, rest)`. -/
def matchToolResultAt (l : List Char) : Option (List Char × List Char × List Char) :=
  match stripLit trOpen l with
  | some r1 =>
    let attrs := r1.takeWhile (fun c => ¬ c = '>')
    match r1.drop attrs.length with
    | '>' :: r3 =>
      match findTrClose r3 with
      | some (cap, rest) =>
        some (trOpen ++ attrs ++ '>' :: (cap ++ trClose), cap, rest)
      | none => none
    | _ => none
  | none => none

/-- All matches of the global tool-result regex, left to right (fueled; one
unit of fuel is spent per character position visited). -/
def toolResultMatchesFuel : Nat → List Char → List (List Char × List Char)
  | 0, _ => []
  | _ + 1, [] => []
  | fuel + 1, l@(_ :: rest) =>
    match matchToolResultAt l with
    | some (full, cap, r) => (full, cap) :: toolResultMatchesFuel fuel r
    | none => toolResultMatchesFuel fuel rest

/-- `content.match(/<tool_result[^>]*>(.*?)<\/tool_result>/gs)` as the list
of full match strings. -/
def toolResultMatches (s : String) : List String :=
  (toolResultMatchesFuel (s.length + 1) s.toList).map (fun p => String.mk p.1)

/-- The second block of `parseToolMessage` (lines 362-387): content that
looks like escaped JSON (`content.startsWith('\x7b') ||
content.includes('role:')`), parsed and dispatched on its `type`; a parse
failure or an unrecognized shape falls through to `return null`. -/
def step2ToolMessage (message : JsVal) (content : Option JsVal) (fresh : String) :
    Except String (Option NormalizedMessage) :=
  match content with
  | some (.vStr s) =>
    if jsStartsWith s "\x7b" || strIncludes s "role:" then
      match jsonParse s with
      | some parsed =>
        if jsEqStrOpt (jsGet parsed "type") "tool_call" then
          .ok (some
            { id := (jsOrOpt (jsGet message "id") (some (.vStr fresh))).getD .vNull
            , type := "tool_call"
            , tool := jsGet parsed "tool"
            , arguments := jsGet parsed "arguments"
            , timestamp := jsGet message "timestamp" })
        else if jsEqStrOpt (jsGet parsed "type") "tool_result" then
          .ok (some
            { id := (jsOrOpt (jsGet message "id") (some (.vStr fresh))).getD .vNull
            , type := "tool_result"
            , tool := jsGet parsed "tool"
            , output := jsGet parsed "output"
            , success := jsGet parsed "success"
            , error := jsGet parsed "error"
            , timestamp := jsGet message "timestamp" })
        else .ok none
      | none => .ok none
    else .ok none
  | _ => .ok none

/-- Embedding of `parseToolMessage` (lines 330-393).  The whole body is
wrapped in `try { ... } catch { return null }`, so the function is total;
the inner `try` around the first `JSON.parse` falls back to the raw-content
result, and a throw raised inside that fallback (from `extractToolName`) is
caught by the outer `catch`.  With the `g` flag, `content.match` returns the
array of full matches, so `match[1]` is the *second full match* (or
`undefined`, which `JSON.parse` coerces to the string `"undefined"`). -/
def parseToolMessage (message : JsVal) (content : Option JsVal) (fresh : String) :
    Option NormalizedMessage :=
  let inner : Except String (Option NormalizedMessage) :=
    (match content with
     | some (.vStr s) =>
       if strIncludes s "<tool_result>" then
         let gMatches := toolResultMatches s
         if ¬ gMatches = [] then
           let match1 : Option String := gMatches.get? 1
           match jsonParse (match1.getD "undefined") with
           | some resultData =>
             match (if jsTruthyOpt (jsGet resultData "tool")
                    then Except.ok ((jsGet resultData "tool").getD .vNull)
                    else extractToolName message content) with
             | .error e => .error e
             | .ok toolV =>
               .ok (some
                 { id := (jsOrOpt (jsGet message "id") (some (.vStr fresh))).getD .vNull
                 , type := "tool_result"
                 , tool := some toolV
                 , output := jsOrOpt (jsGet resultData "output") (some resultData)
                 , success := some (.vBool (!(jsIsFalse (jsGet resultData "success"))))
                 , error := jsGet resultData "error"
                 , timestamp := jsGet message "timestamp" })
           | none =>
             match extractToolName message content with
             | .error e => .error e
             | .ok etn =>
               .ok (some
                 { id := (jsOrOpt (jsGet message "id") (some (.vStr fresh))).getD .vNull
                 , type := "tool_result"
                 , tool := some etn
                 , output := match1.map JsVal.vStr
                 , success := some (.vBool true)
                 , timestamp := jsGet message "timestamp" })
         else step2ToolMessage message content fresh
       else step2ToolMessage message content fresh
     | _ => step2ToolMessage message content fresh)
  match inner with
  | .ok r => r
  | .error _ => none

/-- Embedding of `detectMessageType` (lines 428-472): ordered
predicate→constructor content sniffing with per-block `try`/`catch`
(a parse failure, or property access on a parsed `null`, just moves on). -/
def detectMessageType (c : JsVal) (fresh : String) : Option NormalizedMessage :=
  if !(jsTruthy c) then none
  else
    let contentStr := match c with
      | .vStr s => s
      | _ => jsonStringify c
    let parsedOf : Option JsVal := match c with
      | .vStr s => jsonParse s
      | _ => some c
    let step1 : Option NormalizedMessage :=
      if strIncludes contentStr "tool_call" || strIncludes contentStr "function_name" then
        match parsedOf with
        | some parsed =>
          if jsEqStrOpt (jsGet parsed "type") "tool_call"
              || jsTruthyOpt (jsGet parsed "function_name") then
            some { id := .vStr fresh
                 , type := "tool_call"
                 , tool := jsOrOpt (jsGet parsed "tool") (jsGet parsed "function_name")
                 , arguments := jsOrOpt (jsGet parsed "arguments") (some (.vObj .fnil))
                 , timestamp := jsGet parsed "timestamp" }
          else none
        | none => none
      else none
    match step1 with
    | some r => some r
    | none =>
      if strIncludes contentStr "tool_result" || strIncludes contentStr "success"
          || strIncludes contentStr "output" then
        match parsedOf with
        | some parsed =>
          if jsEqStrOpt (jsGet parsed "type") "tool_result"
              || (jsHasKey parsed "success" && jsHasKey parsed "output") then
            some { id := .vStr fresh
                 , type := "tool_result"
                 , tool := jsOrOpt (jsGet parsed "tool") (some (.vStr "unknown"))
                 , output := jsGet parsed "output"
                 , success := jsGet parsed "success"
                 , error := jsGet parsed "error"
                 , timestamp := jsGet parsed "timestamp" }
          else none
        | none => none
      else none

/-- The speculative content parse (lines 219-231): a string that parses to a
JSON value of `typeof 'object'` (object, array or `null`) replaces the local
`content` and becomes `parsedContent`; otherwise the string is kept and a
parse failure is swallowed. -/
def reparseContent (content0 : Option JsVal) : Option JsVal × Option JsVal :=
  match content0 with
  | some (.vStr s) =>
    match jsonParse s with
    | some p => if isObjectLike p then (some p, some p) else (content0, none)
    | none => (content0, none)
  | _ => (content0, none)

/-- The status branch (lines 237-250). -/
def statusBranch (m : JsVal) (base : NormalizedMessage) : NormalizedMessage :=
  let base1 :=
    { base with
      type := "status",
      status_type := jsOrOpt (jsGet m "status_type") (jsGet m "status"),
      message := jsOrOpt (jsGet m "message") (jsGet m "content") }
  if jsEqStrOpt (jsGet m "status_type") "tool_started" then
    { base1 with type := "status", message := some (.vStr "Computer is starting...") }
  else if jsEqStrOpt (jsGet m "status_type") "tool_completed" then
    { base1 with type := "status", message := some (.vStr "Done") }
  else base1

/-- The trailing metadata/timestamp assignment (lines 311-312); a string
`metadata` that fails `JSON.parse` raises out of the function body into the
top-level `catch`. -/
def finishNormalized (m : JsVal) (n : NormalizedMessage) : Except String NormalizedMessage :=
  let n1 := { n with timestamp := jsOrOpt (jsGet m "timestamp") (jsGet m "created_at") }
  match jsGet m "metadata" with
  | some md =>
    if jsTruthy md then
      match md with
      | .vStr s =>
        match jsonParse s with
        | some p => .ok { n1 with metadata := some p }
        | none => .error "SyntaxError: JSON.parse"
      | _ => .ok { n1 with metadata := some md }
    else .ok { n1 with metadata := some (.vObj .fnil) }
  | none => .ok { n1 with metadata := some (.vObj .fnil) }

/-- `normalized.content` of the user/assistant branches (lines 265, 269):
`typeof content === 'string' ? content : content?.content ||
JSON.stringify(content)`. -/
def userContent (content : Option JsVal) : Option JsVal :=
  match content with
  | some (.vStr s) => some (.vStr s)
  | _ => jsOrOpt (jsGetOpt content "content") (jsonStringifyOpt content)

/-- The canonical pass-through `{ id: message.id || message.message_id ||
generateId(), ...message }` (lines 204-209): the spread copies every
declared field of the record over the result, and a present `id` key
overwrites the defaulted one. -/
def passThrough (m : JsVal) (t : String) (fresh : String) : NormalizedMessage :=
  let cid := (jsOrOpt (jsGet m "id") (jsOrOpt (jsGet m "message_id") (some (.vStr fresh)))).getD .vNull
  { id := (jsGet m "id").getD cid
  , type := t
  , content := jsGet m "content"
  , _content := jsGet m "_content"
  , tool := jsGet m "tool"
  , arguments := jsGet m "arguments"
  , output := jsGet m "output"
  , success := jsGet m "success"
  , error := jsGet m "error"
  , status_type := jsGet m "status_type"
  , message := jsGet m "message"
  , timestamp := jsGet m "timestamp"
  , metadata := jsGet m "metadata"
  , raw := jsGet m "raw" }

/-- The legacy/synthetic normalization path (lines 211-314). -/
def legacyNormalize (m : JsVal) (fresh : String) : Except String NormalizedMessage :=
  let nid := (jsOrOpt (jsGet m "id") (jsOrOpt (jsGet m "message_id") (some (.vStr fresh)))).getD .vNull
  let rc := reparseContent (jsGet m "content")
  let content := rc.1
  let base : NormalizedMessage := { id := nid, type := "unknown", raw := some m, _content := rc.2 }
  if jsEqStrOpt (jsGet m "type") "status" then
    finishNormalized m (statusBranch m base)
  else if jsEqStrOpt (jsGet m "type") "tool" || jsEqStrOpt (jsGet m "role") "tool" then
    match parseToolMessage m content fresh with
    | some tm => .ok tm
    | none =>
      match extractToolName m content with
      | .error e => .error e
      | .ok etn =>
        finishNormalized m
          { base with
            type := "tool_result",
            tool := some etn,
            output := jsOrOpt content (jsGet m "output"),
            success := some (.vBool (!(jsIsFalse (jsGet m "success")))) }
  else if jsEqStrOpt (jsGet m "type") "user" || jsEqStrOpt (jsGet m "role") "user" then
    finishNormalized m { base with type := "user", content := userContent content }
  else if jsEqStrOpt (jsGet m "type") "assistant" || jsEqStrOpt (jsGet m "role") "assistant" then
    finishNormalized m { base with type := "assistant", content := userContent content }
  else if jsEqStrOpt (jsGet m "type") "tool_start" then
    let base1 :=
      if jsTruthyOpt content && isObjectLikeOpt content then
        { base with tool := jsGetOpt content "tag", arguments := jsGetOpt content "attrs" }
      else base
    finishNormalized m
      { base1 with
        type := "tool_start",
        content := jsOrOpt (jsGet m "content") (jsonStringifyOpt content) }
  else if jsEqStrOpt (jsGet m "type") "tool_result" then
    let base1 :=
      if jsTruthyOpt content && isObjectLikeOpt content then
        { base with
          tool := jsGetOpt content "tag",
          output := jsGetOpt content "result",
          success := some (.vBool (!(jsIsFalse (jsGetOpt (jsGetOpt content "result") "ok")))),
          error := jsGetOpt (jsGetOpt content "result") "error" }
      else base
    finishNormalized m
      { base1 with
        type := "tool_result",
        content := jsOrOpt (jsGet m "content") (jsonStringifyOpt content) }
  else if jsEqStrOpt (jsGet m "type") "tool_error" then
    let base1 :=
      if jsTruthyOpt content && isObjectLikeOpt content then
        { base with
          tool := jsGetOpt content "tag",
          error := jsGetOpt content "error",
          success := some (.vBool false) }
      else base
    finishNormalized m
      { base1 with
        type := "tool_error",
        content := jsOrOpt (jsGet m "content") (jsonStringifyOpt content) }
  else
    match detectMessageType ((jsOrOpt content (some m)).getD .vNull) fresh with
    | some dm => .ok dm
    | none =>
      finishNormalized m
        { base with type := "unknown", content := some (.vStr (jsonStringify m)) }

/-- The body of `normalizeMessage` (lines 193-314), before the top-level
`catch`: `.error` marks an uncaught internal throw. -/
def normalizeBody (e : Option JsVal) (fresh : String) : Except String NormalizedMessage :=
  if !(jsTruthyOpt e) then
    .ok { id := .vStr fresh, type := "unknown", raw := e }
  else
    let m := e.getD .vNull
    match jsGet m "type" with
    | some (.vStr t) =>
      if canonicalTypes.contains t then .ok (passThrough m t fresh)
      else legacyNormalize m fresh
    | _ => legacyNormalize m fresh

/-- Embedding of `normalizeMessage` (lines 192-325): the body wrapped in the
top-level `try`/`catch` that converts any internal throw into an `unknown`
fallback message — the function itself never raises. -/
def normalizeMessage (e : Option JsVal) (fresh : String) : NormalizedMessage :=
  match normalizeBody e fresh with
  | .ok n => n
  | .error err =>
    { id := .vStr fresh
    , type := "unknown"
    , content := some (.vStr ("Error normalizing message: " ++ err))
    , raw := e }

/-! ## Tool event model (`src/unnamed/part_011`) -/

/-- The `ToolModel` record of `part_011`. -/
structure ToolModel where
  id : JsVal
  type : String
  tag : Option JsVal
  attrs : Option JsVal
  result : Option JsVal
  error : Option JsVal
  logs : Option JsVal
  path : Option JsVal
  workspace : Option JsVal
  mode : Option JsVal
  created_at : JsVal

/-- Embedding of `parseMaybeJSON` (realtime.ts, lines 278-285): a falsy
argument yields `undefined`; otherwise `JSON.parse` is attempted on the
string coercion of the argument and a throw is swallowed. -/
def parseMaybeJSON (raw : Option JsVal) : Option JsVal :=
  match raw with
  | none => none
  | some v => if ¬ jsTruthy v then none else jsonParse (jsToString v)

/-- Embedding of `getToolModel` (`part_011`, lines 36-54).  `now` abstracts
`new Date().toISOString()`. -/
def getToolModel (msg : NormalizedMessage) (now : String) : ToolModel :=
  let contentObj := parseMaybeJSON msg.content
  let c : JsVal :=
    match msg._content with
    | some (.vStr s) => .vObj (.fcons "text" (.vStr s) .fnil)
    | _ => (jsOrOpt msg._content (jsOrOpt contentObj (some (.vObj .fnil)))).getD (.vObj .fnil)
  { id := msg.id
  , type := msg.type
  , tag := jsOrOpt (jsGet c "tag") msg.tool
  , attrs := jsOrOpt (jsGet c "attrs") msg.arguments
  , result := jsOrOpt (jsGet c "result") msg.output
  , error := jsOrOpt (jsGet c "error") msg.error
  , logs := jsOrOpt (jsGet c "logs") (jsGetOpt (jsGet c "result") "logs")
  , path := jsOrOpt (jsGet c "path") (jsGetOpt (jsGet c "result") "path")
  , workspace := jsOrOpt (jsGet c "workspace") (jsGetOpt (jsGet c "result") "workspace")
  , mode := jsOrOpt (jsGet c "mode") (jsGetOpt (jsGet c "result") "mode")
  , created_at := (jsOrOpt msg.timestamp (some (.vStr now))).getD (.vStr now) }

end Iris

section JsonSanity

open Iris

example : jsonParse "\"" = none := rfl
example : jsonParse "plain text" = none := rfl
example : jsonParse "not-json" = none := rfl
example : jsonParse "null" = some .vNull := rfl
example : jsonParse " \x7b\"a\": 1, \"b\": [true, \"x\"]\x7d " =
    some (JsVal.obj [("a", .vNum 1), ("b", JsVal.arr [.vBool true, .vStr "x"])]) := rfl
example : jsonStringify (JsVal.obj [("content", .vStr "\"")]) = "\x7b\"content\":\"\\\"\"\x7d" :=
  rfl

end JsonSanity

namespace Iris

/-! ## Supporting lemmas for the transport theorems -/

theorem mem_setInsert_self (l : List String) (x : String) : x ∈ setInsert l x := by
  unfold setInsert
  split
  · assumption
  · simp

theorem setInsert_eq_of_mem {l : List String} {x : String} (h : x ∈ l) :
    setInsert l x = l := by
  unfold setInsert
  simp [h]

/-! ## Claim C1 -/

/-- C1, counterexample: for the completion status event
`{"type":"status","status":"completed"}` (which carries a completion marker
but neither end-of-run finality marker), the `onmessage` handler does forward
the event and does not mark the run terminal, but — contrary to the claim —
it closes the stream and invokes the close callback. -/
theorem c1_counterexample :
    (onStreamMessage ⟨["run1"], []⟩ "run1"
        "\x7b\"type\":\"status\",\"status\":\"completed\"\x7d").2.onCloseCalled = true ∧
    (onStreamMessage ⟨["run1"], []⟩ "run1"
        "\x7b\"type\":\"status\",\"status\":\"completed\"\x7d").2.closedStream = true ∧
    (onStreamMessage ⟨["run1"], []⟩ "run1"
        "\x7b\"type\":\"status\",\"status\":\"completed\"\x7d").2.forwarded =
      ["\x7b\"type\":\"status\",\"status\":\"completed\"\x7d"] ∧
    (onStreamMessage ⟨["run1"], []⟩ "run1"
        "\x7b\"type\":\"status\",\"status\":\"completed\"\x7d").1.nonRunningAgentRuns = [] := by
  refine ⟨rfl, rfl, rfl, rfl⟩

/-- C1 (amended): a status event carrying a completion marker but no
end-of-run finality marker is forwarded to `onMessage` and the run id is not
added to the terminal run set, but the handler does close the subscription
and does invoke the close callback. -/
theorem c1_bare_completion_forwarded_not_terminal_but_closed
    (st : TransportState) (runId rawData : String)
    (hping : strIncludes rawData "\"type\":\"ping\"" = false)
    (hne : ¬ (rawData = "" ∨ jsTrim rawData = ""))
    (hnf : (strIncludes rawData "Agent run" &&
            strIncludes rawData "not found in active runs") = false)
    (hst : (strIncludes rawData "\"type\":\"status\"" &&
            strIncludes rawData "\"status\":\"completed\"") = true)
    (hf1 : strIncludes rawData "Run data not available for streaming" = false)
    (hf2 : strIncludes rawData "Stream ended with status: completed" = false) :
    onStreamMessage st runId rawData =
      ({ activeStreams := st.activeStreams.erase runId,
         nonRunningAgentRuns := st.nonRunningAgentRuns },
       { activityBumped := true, forwarded := [rawData], errors := [],
         closedStream := true, onCloseCalled := true }) := by
  unfold onStreamMessage
  simp [hping, hne, hnf, hst, hf1, hf2]

/-- C1, witness: the amended theorem applied to the concrete completion
event. -/
theorem c1_witness :
    onStreamMessage ⟨["run1"], []⟩ "run1"
        "\x7b\"type\":\"status\",\"status\":\"completed\"\x7d" =
      ({ activeStreams := [], nonRunningAgentRuns := [] },
       { activityBumped := true,
         forwarded := ["\x7b\"type\":\"status\",\"status\":\"completed\"\x7d"],
         errors := [], closedStream := true, onCloseCalled := true }) := by
  have h := c1_bare_completion_forwarded_not_terminal_but_closed
    ⟨["run1"], []⟩ "run1" "\x7b\"type\":\"status\",\"status\":\"completed\"\x7d"
    (by decide) (by decide) (by decide) (by decide) (by decide) (by decide)
  simpa using h

/-! ## Claim C10 -/

/-- C10: any raw stream event whose text contains the substring
`"type":"ping"` anywhere is treated as a heartbeat: the handler only bumps
the last-activity timestamp — nothing is forwarded to `onMessage`, `onError`
or `onClose`, the stream stays open and the registries are untouched. -/
theorem c10_ping_substring_swallowed
    (st : TransportState) (runId rawData : String)
    (h : strIncludes rawData "\"type\":\"ping\"" = true) :
    onStreamMessage st runId rawData =
      (st, { activityBumped := true, forwarded := [], errors := [],
             closedStream := false, onCloseCalled := false }) := by
  unfold onStreamMessage
  simp [h]

/-- C10, witness: a substantive status event that also carries both
completion markers is still swallowed because it embeds the ping
substring. -/
theorem c10_witness :
    onStreamMessage ⟨["run1"], []⟩ "run1"
        "\x7b\"type\":\"status\",\"status\":\"completed\",\"note\":\"quoting \"type\":\"ping\" here\"\x7d" =
      (⟨["run1"], []⟩,
       { activityBumped := true, forwarded := [], errors := [],
         closedStream := false, onCloseCalled := false }) :=
  c10_ping_substring_swallowed ⟨["run1"], []⟩ "run1" _ (by decide)

/-! ## Claim C2 -/

/-- C2, counterexample: with `run1` already in the terminal run set and no
active stream, `streamAgent` still constructs a new `EventSource` for it. -/
theorem c2_counterexample :
    "run1" ∈ (⟨[], ["run1"]⟩ : TransportState).nonRunningAgentRuns ∧
    (streamAgent ⟨[], ["run1"]⟩ "run1" true).2.createdEventSource = true := by
  exact ⟨by decide, rfl⟩

/-- C2 (amended): `streamAgent` does not consult the terminal run set: even
for a run id recorded as terminal it closes any previous stream and (when a
session token is available) opens a new `EventSource`; its observable start
events are identical to those for a transport whose terminal set is empty. -/
theorem c2_start_ignores_terminal_set
    (st : TransportState) (runId : String)
    (_h : runId ∈ st.nonRunningAgentRuns) :
    (streamAgent st runId true).2.createdEventSource = true ∧
    (streamAgent st runId true).1.nonRunningAgentRuns = st.nonRunningAgentRuns ∧
    ∀ tok, (streamAgent st runId tok).2 =
      (streamAgent ⟨st.activeStreams, []⟩ runId tok).2 := by
  refine ⟨?_, ?_, ?_⟩
  · by_cases hm : runId ∈ st.activeStreams <;> simp [streamAgent, hm]
  · by_cases hm : runId ∈ st.activeStreams <;> simp [streamAgent, hm]
  · intro tok
    by_cases hm : runId ∈ st.activeStreams <;>
      cases tok <;> simp [streamAgent, hm]

/-- C2, witness: the amended theorem at a concrete terminal run. -/
theorem c2_witness :
    (streamAgent ⟨[], ["run1"]⟩ "run1" true).2.createdEventSource = true ∧
    (streamAgent ⟨[], ["run1"]⟩ "run1" true).1.nonRunningAgentRuns = ["run1"] ∧
    ∀ tok, (streamAgent ⟨[], ["run1"]⟩ "run1" tok).2 =
      (streamAgent ⟨[], []⟩ "run1" tok).2 :=
  c2_start_ignores_terminal_set ⟨[], ["run1"]⟩ "run1" (by decide)

/-! ## Claim C6 -/

/-- C6, counterexample: the first `stopAgent` call registers the run id as
terminal, yet the second call still issues the remote stop request. -/
theorem c6_counterexample :
    "run1" ∈ (stopAgent ⟨[], []⟩ "run1" true true).1.nonRunningAgentRuns ∧
    (stopAgent (stopAgent ⟨[], []⟩ "run1" true true).1 "run1" true true).2.remoteStopIssued
      = true := by
  exact ⟨by decide, rfl⟩

/-- C6 (amended): calling `stopAgent` twice with a token available and an OK
backend response throws on neither call, is idempotent on the registries
(the second call leaves the state unchanged), but each call issues its own
remote stop request. -/
theorem c6_stop_twice_idempotent_state_but_two_requests
    (st : TransportState) (runId : String)
    (hnd : st.activeStreams.Nodup) :
    (stopAgent st runId true true).2.threw = none ∧
    (stopAgent (stopAgent st runId true true).1 runId true true).2.threw = none ∧
    runId ∈ (stopAgent st runId true true).1.nonRunningAgentRuns ∧
    (stopAgent (stopAgent st runId true true).1 runId true true).1 =
      (stopAgent st runId true true).1 ∧
    (stopAgent (stopAgent st runId true true).1 runId true true).2.remoteStopIssued = true := by
  have hmem : runId ∈ setInsert st.nonRunningAgentRuns runId := mem_setInsert_self _ _
  refine ⟨rfl, rfl, ?_, ?_, rfl⟩
  · by_cases hm : runId ∈ st.activeStreams <;> simp [stopAgent, hm, hmem]
  · by_cases hm : runId ∈ st.activeStreams
    · have hout : runId ∉ st.activeStreams.erase runId := hnd.not_mem_erase
      simp [stopAgent, hm, hout, setInsert_eq_of_mem hmem]
    · simp [stopAgent, hm, setInsert_eq_of_mem hmem]

/-- C6, witness: the amended theorem at a concrete state with an open
stream for the run. -/
theorem c6_witness :
    (stopAgent ⟨["run1"], []⟩ "run1" true true).2.threw = none ∧
    (stopAgent (stopAgent ⟨["run1"], []⟩ "run1" true true).1 "run1" true true).2.threw = none ∧
    "run1" ∈ (stopAgent ⟨["run1"], []⟩ "run1" true true).1.nonRunningAgentRuns ∧
    (stopAgent (stopAgent ⟨["run1"], []⟩ "run1" true true).1 "run1" true true).1 =
      (stopAgent ⟨["run1"], []⟩ "run1" true true).1 ∧
    (stopAgent (stopAgent ⟨["run1"], []⟩ "run1" true true).1 "run1" true true).2.remoteStopIssued
      = true :=
  c6_stop_twice_idempotent_state_but_two_requests ⟨["run1"], []⟩ "run1" (by decide)

end Iris

namespace Iris

/-! ## Supporting lemmas for the replay theorems -/

theorem strToList_append (a b : String) : (a ++ b).toList = a.toList ++ b.toList := rfl

theorem strMk_append (a b : List Char) : String.mk (a ++ b) = String.mk a ++ String.mk b := rfl

theorem stripLit_self_append (p r : List Char) : stripLit p (p ++ r) = some r := by
  induction p with
  | nil => simp [stripLit]
  | cons c cs ih => simp [stripLit, ih]

theorem stripLit_cons_ne {p c : Char} (ps : List Char) (h : ¬ p = c) (cs : List Char) :
    stripLit (p :: ps) (c :: cs) = none := by
  simp [stripLit, h]

theorem readPayload_exact {path : List Char} (rest : List Char)
    (h1 : ']' ∉ path) (h2 : '\n' ∉ path) :
    readPayload (path ++ ']' :: rest) = some (path, rest) := by
  induction path with
  | nil => simp [readPayload]
  | cons c cs ih =>
    have hc : ¬ c = ']' := fun hh => h1 (hh ▸ List.mem_cons_self c cs)
    have hn : ¬ c = '\n' := fun hh => h2 (hh ▸ List.mem_cons_self c cs)
    have ihr := ih (fun hm => h1 (List.mem_cons_of_mem c hm))
      (fun hm => h2 (List.mem_cons_of_mem c hm))
    simp only [List.cons_append, readPayload, if_neg hc, if_neg hn, List.append_eq, ihr]

theorem scanMarkers_nil : scanMarkers [] = ([], []) := by
  rw [scanMarkers.eq_def]

theorem scanMarkers_cons_nomatch {c : Char} {rest : List Char}
    (h : stripLit markerOpen (c :: rest) = none) :
    scanMarkers (c :: rest) = ((scanMarkers rest).1, c :: (scanMarkers rest).2) := by
  conv_lhs => rw [scanMarkers.eq_def]
  split
  · rename_i hs
    exact absurd hs (by simp)
  · rename_i c2 rest2 heq
    injection heq with hc hr
    subst hc
    subst hr
    split
    · rename_i afterOpen hs
      rw [h] at hs
      exact absurd hs (by simp)
    · rfl

theorem scanMarkers_cons_match {c : Char} {rest payload remaining : List Char}
    (afterOpen : List Char)
    (h1 : stripLit markerOpen (c :: rest) = some afterOpen)
    (h2 : readPayload afterOpen = some (payload, remaining)) :
    scanMarkers (c :: rest) =
      (String.mk payload :: (scanMarkers remaining).1, (scanMarkers remaining).2) := by
  conv_lhs => rw [scanMarkers.eq_def]
  split
  · rename_i hs
    exact absurd hs (by simp)
  · rename_i c2 rest2 heq
    injection heq with hc hr
    subst hc
    subst hr
    split
    · rename_i a hs
      rw [h1] at hs
      simp only [Option.some.injEq] at hs
      subst hs
      split
      · rename_i p r hr
        rw [h2] at hr
        simp only [Option.some.injEq, Prod.mk.injEq] at hr
        obtain ⟨hp, hrr⟩ := hr
        subst hp
        subst hrr
        rfl
      · rename_i hr
        rw [h2] at hr
        exact absurd hr (by simp)
    · rename_i hs
      rw [h1] at hs
      exact absurd hs (by simp)

theorem scanMarkers_no_open {l : List Char} (rest : List Char) (h : '[' ∉ l) :
    scanMarkers (l ++ rest) = ((scanMarkers rest).1, l ++ (scanMarkers rest).2) := by
  induction l with
  | nil => simp
  | cons c cs ih =>
    have hc : ¬ '[' = c := fun hh => h (hh ▸ List.mem_cons_self c cs)
    have hnone : stripLit markerOpen (c :: (cs ++ rest)) = none := by
      have : markerOpen = '[' :: "Uploaded File: ".toList := rfl
      rw [this]
      exact stripLit_cons_ne _ hc _
    have ihr := ih (fun hm => h (List.mem_cons_of_mem c hm))
    simp only [List.cons_append, scanMarkers_cons_nomatch hnone, ihr]

theorem scanMarkers_closed {l : List Char} (h : '[' ∉ l) :
    scanMarkers l = ([], l) := by
  have := scanMarkers_no_open (l := l) [] h
  simpa [scanMarkers_nil] using this

/-! ## Claim C3 -/

/-- C3, counterexample: mid-type reveal of the message
`[Uploaded File: reports/out.pdf]` at `charIndex = 15` displays the raw
prefix `[Uploaded File: ` — an unterminated attachment marker (the marker
opener is shown with no closing `]` anywhere in the displayed text), because
the streaming branch of the renderer shows `streamingText` rather than an
extraction of the revealed substring. -/
theorem c3_counterexample :
    displayContent "[Uploaded File: reports/out.pdf]"
        (streamingTextAt "[Uploaded File: reports/out.pdf]" 15) true = "[Uploaded File: " ∧
    strIncludes (displayContent "[Uploaded File: reports/out.pdf]"
        (streamingTextAt "[Uploaded File: reports/out.pdf]" 15) true) "[Uploaded File: " = true ∧
    (displayContent "[Uploaded File: reports/out.pdf]"
        (streamingTextAt "[Uploaded File: reports/out.pdf]" 15) true).toList.contains ']' = false := by
  refine ⟨rfl, by decide, by decide⟩

/-- C3 (amended): attachment extraction operates on the full message content,
not on the revealed substring: the settled (non-streaming) display of a
message `pre ++ "[Uploaded File: " ++ path ++ "]" ++ post` (with `pre`/`post`
free of `[` and a non-empty newline-free, `]`-free path) is `(pre ++
post).trim()` with the path extracted, while a mid-type partial reveal
displays the raw prefix of the content unchanged, so an unterminated marker
can appear mid-reveal (see the counterexample). -/
theorem c3_extraction_on_full_content
    (pre path post : String)
    (hpre : '[' ∉ pre.toList)
    (hpath1 : ']' ∉ path.toList)
    (hpath2 : '\n' ∉ path.toList)
    (hpath3 : ¬ path = "")
    (hpost : '[' ∉ post.toList) :
    parseAttachments (pre ++ "[Uploaded File: " ++ path ++ "]" ++ post) =
      (jsTrim (pre ++ post), [path]) ∧
    ∀ k : Nat, displayContent (pre ++ "[Uploaded File: " ++ path ++ "]" ++ post)
        (streamingTextAt (pre ++ "[Uploaded File: " ++ path ++ "]" ++ post) k) true =
      String.mk ((pre ++ "[Uploaded File: " ++ path ++ "]" ++ post).toList.take (k + 1)) := by
  constructor
  · have hsplit : (pre ++ "[Uploaded File: " ++ path ++ "]" ++ post).toList =
        pre.toList ++ (markerOpen ++ (path.toList ++ ']' :: post.toList)) := by
      simp only [strToList_append]
      have : ("]" : String).toList = [']'] := rfl
      rw [this]
      simp [markerOpen]
    have hmarker : scanMarkers (markerOpen ++ (path.toList ++ ']' :: post.toList)) =
        (String.mk path.toList :: (scanMarkers post.toList).1,
         (scanMarkers post.toList).2) := by
      have hopen : markerOpen ++ (path.toList ++ ']' :: post.toList) =
          '[' :: ("Uploaded File: ".toList ++ (path.toList ++ ']' :: post.toList)) := rfl
      rw [hopen]
      refine scanMarkers_cons_match (path.toList ++ ']' :: post.toList) ?_ ?_
      · exact stripLit_self_append markerOpen (path.toList ++ ']' :: post.toList)
      · exact readPayload_exact _ hpath1 hpath2
    have hpostscan := scanMarkers_closed hpost
    have hfull := scanMarkers_no_open (l := pre.toList)
      (markerOpen ++ (path.toList ++ ']' :: post.toList)) hpre
    rw [hmarker, hpostscan] at hfull
    unfold parseAttachments
    rw [hsplit, hfull]
    have hmkpath : String.mk path.toList = path := rfl
    simp only [hmkpath, List.filter]
    have hfilter : (decide (¬ path = "")) = true := by simp [hpath3]
    simp only [hfilter, List.filter_nil]
    have hclean : String.mk (pre.toList ++ post.toList) = pre ++ post := rfl
    rw [hclean]
  · intro k
    rfl

/-- C3, witness: the amended theorem at the content
`"Summary text\n\n[Uploaded File: reports/out.pdf]"`, giving displayed text
`"Summary text"` and the single extracted path `"reports/out.pdf"`. -/
theorem c3_witness :
    parseAttachments ("Summary text\n\n" ++ "[Uploaded File: " ++ "reports/out.pdf" ++ "]" ++ "") =
      (jsTrim ("Summary text\n\n" ++ ""), ["reports/out.pdf"]) ∧
    jsTrim ("Summary text\n\n" ++ "") = "Summary text" := by
  refine ⟨(c3_extraction_on_full_content "Summary text\n\n" "reports/out.pdf" ""
    (by decide) (by decide) (by decide) (by decide) (by decide)).1, by decide⟩

/-! ## Claim C8 -/

/-- C8: for any integer index and a non-empty history of `len` messages,
`skipToMessage` clamps the index into `[0, len-1]`, stops playback, and
clears the partial-reveal state; an index below `0` clamps to `0` and an
index at or beyond `len-1` clamps to `len-1`. -/
theorem c8_seek_clamps_and_stops
    (len : Nat) (hlen : 1 ≤ len) (index : Int) (s : PlaybackState) :
    (0 ≤ (skipToMessage len index s).currentMessageIndex ∧
      (skipToMessage len index s).currentMessageIndex ≤ (len : Int) - 1) ∧
    (skipToMessage len index s).isPlaying = false ∧
    (skipToMessage len index s).streamingText = "" ∧
    (skipToMessage len index s).isStreamingComplete = false ∧
    (index < 0 → (skipToMessage len index s).currentMessageIndex = 0) ∧
    ((len : Int) - 1 ≤ index → (skipToMessage len index s).currentMessageIndex = (len : Int) - 1) := by
  unfold skipToMessage pausePlayback
  refine ⟨?_, rfl, rfl, rfl, ?_, ?_⟩ <;>
    simp only [Int.max_def, Int.min_def] <;> split <;> split <;> omega

/-- C8, witness: on a 10-message history, `seek(-5)` yields index `0` and
`seek(999)` yields index `9`, both with playback stopped and the reveal
state cleared. -/
theorem c8_witness :
    ((skipToMessage 10 (-5) ⟨true, 3, "part", true⟩).currentMessageIndex = 0 ∧
      (skipToMessage 10 999 ⟨true, 3, "part", true⟩).currentMessageIndex = 9) ∧
    (skipToMessage 10 (-5) ⟨true, 3, "part", true⟩).isPlaying = false ∧
    (skipToMessage 10 (-5) ⟨true, 3, "part", true⟩).streamingText = "" ∧
    (skipToMessage 10 (-5) ⟨true, 3, "part", true⟩).isStreamingComplete = false := by
  have h1 := c8_seek_clamps_and_stops 10 (by decide) (-5) ⟨true, 3, "part", true⟩
  have h2 := c8_seek_clamps_and_stops 10 (by decide) 999 ⟨true, 3, "part", true⟩
  refine ⟨⟨h1.2.2.2.2.1 (by decide), ?_⟩, h1.2.1, h1.2.2.1, h1.2.2.2.1⟩
  have := h2.2.2.2.2.2 (by decide)
  simpa using this

end Iris

namespace Iris

/-! ## Supporting lemmas for the message-store theorems -/

theorem getKey_setKey {α : Type} (o : List (String × α)) (k k' : String) (v : α) :
    getKey (setKey o k v) k' = if k = k' then some v else getKey o k' := by
  induction o with
  | nil =>
    simp only [setKey, getKey]
  | cons p rest ih =>
    obtain ⟨k0, v0⟩ := p
    by_cases h0 : k0 = k
    · simp only [setKey, if_pos h0]
      subst h0
      simp only [getKey]
      by_cases h1 : k0 = k' <;> simp [h1]
    · simp only [setKey, if_neg h0, getKey, ih]
      by_cases h1 : k0 = k'
      · subst h1
        have hne : ¬ k = k0 := Ne.symm h0
        simp [hne]
      · simp [h1]

theorem getKey_none_iff {α : Type} (o : List (String × α)) (k : String) :
    getKey o k = none ↔ k ∉ o.map Prod.fst := by
  induction o with
  | nil => simp [getKey]
  | cons p rest ih =>
    obtain ⟨k0, v0⟩ := p
    by_cases h0 : k0 = k
    · subst h0
      simp [getKey]
    · have hne : ¬ k = k0 := Ne.symm h0
      simp [getKey, h0, ih, hne]

theorem keys_setKey {α : Type} (o : List (String × α)) (k : String) (v : α) :
    (setKey o k v).map Prod.fst =
      if k ∈ o.map Prod.fst then o.map Prod.fst else o.map Prod.fst ++ [k] := by
  induction o with
  | nil => simp [setKey]
  | cons p rest ih =>
    obtain ⟨k0, v0⟩ := p
    by_cases h0 : k0 = k
    · subst h0
      simp [setKey]
    · have hne : ¬ k = k0 := fun h => h0 h.symm
      by_cases hm : k ∈ rest.map Prod.fst <;>
        simp [setKey, h0, hne, hm, ih]

theorem jsIndexOf_nonneg_iff (l : List String) (x : String) :
    0 ≤ jsIndexOf l x ↔ x ∈ l := by
  induction l with
  | nil => simp [jsIndexOf]
  | cons a rest ih =>
    by_cases h : a = x
    · subst h
      simp [jsIndexOf]
    · have hne : ¬ x = a := fun hh => h hh.symm
      by_cases hr : jsIndexOf rest x < 0
      · simp only [jsIndexOf, if_neg h, if_pos hr]
        constructor
        · omega
        · intro hm
          rcases List.mem_cons.mp hm with h1 | h1
          · exact absurd h1 hne
          · exact absurd (ih.mpr h1) (by omega)
      · simp only [jsIndexOf, if_neg h, if_neg hr]
        constructor
        · intro _
          exact List.mem_cons_of_mem a (ih.mp (by omega))
        · intro _
          omega

theorem getKey_spreadMerge (old new : List (String × JsVal)) (k : String)
    (hnd : (new.map Prod.fst).Nodup) :
    getKey (spreadMerge old new) k =
      match getKey new k with
      | some v => some v
      | none => getKey old k := by
  induction new generalizing old with
  | nil => simp [spreadMerge, getKey]
  | cons p ns ih =>
    obtain ⟨k0, v0⟩ := p
    have hnotin : k0 ∉ ns.map Prod.fst := (List.nodup_cons.mp (by simpa using hnd)).1
    have hnd' : (ns.map Prod.fst).Nodup := (List.nodup_cons.mp (by simpa using hnd)).2
    have hstep : spreadMerge old ((k0, v0) :: ns) = spreadMerge (setKey old k0 v0) ns := rfl
    rw [hstep, ih _ hnd']
    by_cases hk : k0 = k
    · subst hk
      have hnone : getKey ns k0 = none := (getKey_none_iff _ _).mpr hnotin
      rw [hnone]
      simp [getKey, getKey_setKey]
    · cases hns : getKey ns k <;> simp [getKey, hk, getKey_setKey, hns]

/-! ## Claim C5 -/

/-- C5: upserting a fresh id appends it at the end of the order; upserting
the same id again leaves the order (hence the message's position) unchanged
and stores the spread-merge of the two messages, in which every key present
in the second message takes the second message's value and every key absent
from it keeps the first message's value — so disjoint field sets produce the
union and overlapping keys keep the later value.  The second message's
record has no duplicate keys (JavaScript objects cannot). -/
theorem c5_upsert_merges_by_id (s : AgentRunState) (m1 m2 : AgentMessage)
    (hid : m1.message_id = m2.message_id)
    (hfresh : m1.message_id ∉ s.order)
    (hnodup : (m2.fields.map Prod.fst).Nodup) :
    (updateMessage s m1).order = s.order ++ [m1.message_id] ∧
    (updateMessage (updateMessage s m1) m2).order = (updateMessage s m1).order ∧
    getKey (updateMessage (updateMessage s m1) m2).byId m1.message_id =
      some (mergeMessage (some m1) m2) ∧
    (∀ k, getKey (mergeMessage (some m1) m2).fields k =
      match getKey m2.fields k with
      | some v => some v
      | none => getKey m1.fields k) := by
  obtain ⟨id1, f1⟩ := m1
  obtain ⟨id2, f2⟩ := m2
  simp only [AgentMessage.mk.injEq] at hid ⊢
  simp only at hfresh hnodup
  subst hid
  have hneg : ¬ 0 ≤ jsIndexOf s.order id1 := fun h =>
    hfresh ((jsIndexOf_nonneg_iff _ _).mp h)
  have hstep1 : updateMessage s ⟨id1, f1⟩ =
      { s with byId := setKey s.byId id1 ⟨id1, f1⟩, order := s.order ++ [id1] } := by
    unfold updateMessage
    dsimp only
    split
    · rename_i h
      exact absurd h hneg
    · rfl
  have hmem : id1 ∈ s.order ++ [id1] := by simp
  have hpos : 0 ≤ jsIndexOf (s.order ++ [id1]) id1 := (jsIndexOf_nonneg_iff _ _).mpr hmem
  have hget1 : getKey (setKey s.byId id1 ⟨id1, f1⟩) id1 = some ⟨id1, f1⟩ := by
    rw [getKey_setKey]
    simp
  have hstep2 : updateMessage (updateMessage s ⟨id1, f1⟩) ⟨id1, f2⟩ =
      { s with
        byId := setKey (setKey s.byId id1 ⟨id1, f1⟩) id1
          (mergeMessage (some ⟨id1, f1⟩) ⟨id1, f2⟩),
        order := s.order ++ [id1] } := by
    rw [hstep1]
    unfold updateMessage
    dsimp only
    split
    · rw [hget1]
    · rename_i h
      exact absurd hpos h
  refine ⟨by rw [hstep1], by rw [hstep2, hstep1], ?_, ?_⟩
  · rw [hstep2]
    simp [getKey_setKey]
  · intro k
    exact getKey_spreadMerge f1 f2 k hnodup

/-- C5, witness: upserting `{a, b}` then `{b, c}` under one id yields the
union with the later `b`; the id is appended once and its position is
unchanged by the second upsert. -/
theorem c5_witness :
    (updateMessage initialRunState ⟨"m1", [("a", .vStr "1"), ("b", .vStr "2")]⟩).order
      = ["m1"] ∧
    (updateMessage (updateMessage initialRunState ⟨"m1", [("a", .vStr "1"), ("b", .vStr "2")]⟩)
        ⟨"m1", [("b", .vStr "3"), ("c", .vStr "4")]⟩).order = ["m1"] ∧
    getKey (updateMessage
        (updateMessage initialRunState ⟨"m1", [("a", .vStr "1"), ("b", .vStr "2")]⟩)
        ⟨"m1", [("b", .vStr "3"), ("c", .vStr "4")]⟩).byId "m1" =
      some (mergeMessage (some ⟨"m1", [("a", .vStr "1"), ("b", .vStr "2")]⟩)
        ⟨"m1", [("b", .vStr "3"), ("c", .vStr "4")]⟩) ∧
    getKey (mergeMessage (some ⟨"m1", [("a", .vStr "1"), ("b", .vStr "2")]⟩)
        ⟨"m1", [("b", .vStr "3"), ("c", .vStr "4")]⟩).fields "a" = some (.vStr "1") ∧
    getKey (mergeMessage (some ⟨"m1", [("a", .vStr "1"), ("b", .vStr "2")]⟩)
        ⟨"m1", [("b", .vStr "3"), ("c", .vStr "4")]⟩).fields "b" = some (.vStr "3") ∧
    getKey (mergeMessage (some ⟨"m1", [("a", .vStr "1"), ("b", .vStr "2")]⟩)
        ⟨"m1", [("b", .vStr "3"), ("c", .vStr "4")]⟩).fields "c" = some (.vStr "4") := by
  have h := c5_upsert_merges_by_id initialRunState
    ⟨"m1", [("a", .vStr "1"), ("b", .vStr "2")]⟩
    ⟨"m1", [("b", .vStr "3"), ("c", .vStr "4")]⟩
    rfl (by simp [initialRunState]) (by simp)
  refine ⟨by simpa [initialRunState] using h.1, ?_, h.2.2.1, ?_, ?_, ?_⟩
  · rw [h.2.1]
    simpa [initialRunState] using h.1
  · have := h.2.2.2 "a"
    simpa [getKey] using this
  · have := h.2.2.2 "b"
    simpa [getKey] using this
  · have := h.2.2.2 "c"
    simpa [getKey] using this

/-! ## Claim C9 -/

theorem storeInv_applyOp {s : AgentRunState} (hs : s.byId.map Prod.fst = s.order)
    (op : StoreOp) : (applyOp s op).byId.map Prod.fst = (applyOp s op).order := by
  cases op with
  | clearOp => rfl
  | upd m =>
    show (updateMessage s m).byId.map Prod.fst = (updateMessage s m).order
    unfold updateMessage
    by_cases h : 0 ≤ jsIndexOf s.order m.message_id
    · have hmem : m.message_id ∈ s.order := (jsIndexOf_nonneg_iff _ _).mp h
      simp only [if_pos h, keys_setKey, hs, if_pos hmem]
    · have hmem : m.message_id ∉ s.order := fun hm => h ((jsIndexOf_nonneg_iff _ _).mpr hm)
      simp only [if_neg h, keys_setKey, hs, if_neg hmem]

/-- C9: starting from the empty state, after any sequence of `updateMessage`
and `clear` operations the key list of `byId` coincides with `order`; in
particular `order.length = byId.size` holds after every operation (each
intermediate state is `runOps` of the corresponding prefix). -/
theorem c9_order_length_eq_byId_size (ops : List StoreOp) :
    (runOps ops).byId.map Prod.fst = (runOps ops).order ∧
    (runOps ops).order.length = (runOps ops).byId.length := by
  have hinv : ∀ (l : List StoreOp) (s : AgentRunState),
      s.byId.map Prod.fst = s.order →
      (l.foldl applyOp s).byId.map Prod.fst = (l.foldl applyOp s).order := by
    intro l
    induction l with
    | nil => intro s hs; exact hs
    | cons op rest ih =>
      intro s hs
      exact ih _ (storeInv_applyOp hs op)
  have h : (runOps ops).byId.map Prod.fst = (runOps ops).order :=
    hinv ops initialRunState rfl
  refine ⟨h, ?_⟩
  calc (runOps ops).order.length
      = ((runOps ops).byId.map Prod.fst).length := by rw [h]
    _ = (runOps ops).byId.length := List.length_map _ _

end Iris

namespace Iris

/-! ## Claim C4 -/

/-- C4, counterexample: the event `{content: '"'}` has string content that
fails JSON parsing, yet the normalized message does not retain it verbatim —
the fallback `unknown` branch stores `JSON.stringify(message)` as the
content instead of the original string. -/
theorem c4_counterexample :
    jsonParse "\"" = none ∧
    (normalizeMessage (some (JsVal.obj [("content", .vStr "\"")])) "f").content =
      some (.vStr "\x7b\"content\":\"\\\"\"\x7d") ∧
    ¬ ("\x7b\"content\":\"\\\"\"\x7d" : String) = "\"" :=
  ⟨rfl, rfl, by decide⟩

/-- C4 (amended): `normalizeMessage` never raises — any internal throw (for
example a `metadata` string that fails `JSON.parse`) is caught and converted
into an `unknown` fallback message that preserves the original event in
`raw`; and for an event carrying an explicit `user` role whose string
content fails structured parsing, the content is retained verbatim.  For
other event shapes the original string is preserved only inside `raw`; the
`content` field of the `unknown` fallback is a re-serialization of the whole
event (see the counterexample). -/
theorem c4_never_throws_and_user_content_verbatim :
    (∀ (e : Option JsVal) (fresh err : String),
      normalizeBody e fresh = .error err →
      normalizeMessage e fresh =
        { id := .vStr fresh, type := "unknown",
          content := some (.vStr ("Error normalizing message: " ++ err)), raw := e }) ∧
    (∀ (m : JsVal) (s fresh : String),
      jsTruthy m = true →
      jsGet m "type" = none →
      jsGet m "role" = some (.vStr "user") →
      jsGet m "content" = some (.vStr s) →
      jsonParse s = none →
      jsGet m "id" = none →
      jsGet m "message_id" = none →
      jsGet m "timestamp" = none →
      jsGet m "created_at" = none →
      jsGet m "metadata" = none →
      normalizeMessage (some m) fresh =
        { id := .vStr fresh, type := "user", content := some (.vStr s),
          raw := some m, metadata := some (.vObj .fnil) }) := by
  constructor
  · intro e fresh err h
    unfold normalizeMessage
    rw [h]
  · intro m s fresh htr hty hrole hcont hparse hid hmid hts hca hmd
    unfold normalizeMessage normalizeBody
    simp only [jsTruthyOpt, htr, Bool.not_true, Bool.false_eq_true, if_false, Option.getD_some,
      hty]
    unfold legacyNormalize
    simp only [hid, hmid, hty, hrole, hcont, hmd, hts, hca, jsOrOpt, jsTruthyOpt, jsTruthy,
      jsEqStrOpt, reparseContent, hparse]
    simp only [userContent, finishNormalized, jsOrOpt, jsTruthyOpt, hts, hca, hmd]
    simp

/-- C4, witness: the amended theorem applied (1) to an event whose string
`metadata` fails parsing — the body raises and the wrapper returns the
fallback message instead of throwing — and (2) to a `user`-role event with
the unparseable content `"plain text"`, retained verbatim. -/
theorem c4_witness :
    normalizeMessage
        (some (JsVal.obj [("role", .vStr "user"), ("content", .vStr "hi"),
          ("metadata", .vStr "not-json")])) "f" =
      { id := .vStr "f", type := "unknown",
        content := some (.vStr ("Error normalizing message: " ++ "SyntaxError: JSON.parse")),
        raw := some (JsVal.obj [("role", .vStr "user"), ("content", .vStr "hi"),
          ("metadata", .vStr "not-json")]) } ∧
    normalizeMessage
        (some (JsVal.obj [("role", .vStr "user"), ("content", .vStr "plain text")])) "f" =
      { id := .vStr "f", type := "user", content := some (.vStr "plain text"),
        raw := some (JsVal.obj [("role", .vStr "user"), ("content", .vStr "plain text")]),
        metadata := some (.vObj .fnil) } :=
  ⟨c4_never_throws_and_user_content_verbatim.1
      (some (JsVal.obj [("role", .vStr "user"), ("content", .vStr "hi"),
        ("metadata", .vStr "not-json")])) "f" "SyntaxError: JSON.parse" rfl,
   c4_never_throws_and_user_content_verbatim.2
      (JsVal.obj [("role", .vStr "user"), ("content", .vStr "plain text")]) "plain text" "f"
      rfl rfl rfl rfl rfl rfl rfl rfl rfl rfl⟩

/-! ## Claim C7 -/

/-- C7, counterexample: for a tool message with no resolvable tag (`content`
unparseable, no `_content`, no `tool` field), `getToolModel` leaves `tag`
`undefined` — it does not default it to `"unknown"` (the `"unknown"` default
lives in the normalizer's `extractToolName`, not in `getToolModel`). -/
theorem c7_counterexample :
    (getToolModel { id := .vStr "m1", type := "tool_result" } "T").tag = none ∧
    ¬ (none : Option JsVal) = some (.vStr "unknown") :=
  ⟨rfl, by simp⟩

/-- C7 (amended): `getToolModel` is total on every content shape (pre-parsed
object, JSON-like string, or plain text), and every field it cannot resolve
is left `undefined` — *including* `tag`, which has no `"unknown"` default;
`created_at` falls back to the current time.  When the top-level fields are
absent but `_content.result` carries `logs`/`path`/`workspace`/`mode`, the
nested values are used. -/
theorem c7_unresolved_fields_are_undefined :
    (∀ (msg : NormalizedMessage) (now : String),
      msg._content = none →
      parseMaybeJSON msg.content = none →
      msg.tool = none →
      msg.arguments = none →
      msg.output = none →
      msg.error = none →
      msg.timestamp = none →
      getToolModel msg now =
        { id := msg.id, type := msg.type, tag := none, attrs := none,
          result := none, error := none, logs := none, path := none,
          workspace := none, mode := none, created_at := .vStr now }) ∧
    (∀ (i : JsVal) (t now : String) (lv pv wv mv : JsVal),
      (getToolModel
          { id := i, type := t,
            _content := some (.vObj (.fcons "result"
              (.vObj (.fcons "logs" lv (.fcons "path" pv
                (.fcons "workspace" wv (.fcons "mode" mv .fnil))))) .fnil)) } now).logs
          = some lv ∧
      (getToolModel
          { id := i, type := t,
            _content := some (.vObj (.fcons "result"
              (.vObj (.fcons "logs" lv (.fcons "path" pv
                (.fcons "workspace" wv (.fcons "mode" mv .fnil))))) .fnil)) } now).path
          = some pv ∧
      (getToolModel
          { id := i, type := t,
            _content := some (.vObj (.fcons "result"
              (.vObj (.fcons "logs" lv (.fcons "path" pv
                (.fcons "workspace" wv (.fcons "mode" mv .fnil))))) .fnil)) } now).workspace
          = some wv ∧
      (getToolModel
          { id := i, type := t,
            _content := some (.vObj (.fcons "result"
              (.vObj (.fcons "logs" lv (.fcons "path" pv
                (.fcons "workspace" wv (.fcons "mode" mv .fnil))))) .fnil)) } now).mode
          = some mv) := by
  constructor
  · intro msg now h1 h2 h3 h4 h5 h6 h7
    unfold getToolModel
    rw [h2]
    simp only [h1, h3, h4, h5, h6, h7, jsOrOpt, jsTruthyOpt, jsGetOpt, jsGet]
    rfl
  · intro i t now lv pv wv mv
    exact ⟨rfl, rfl, rfl, rfl⟩

/-- C7, witness: the amended theorem at a concrete unresolvable message
(every optional field `undefined`, `tag` not defaulted) and at a concrete
message with nested `result` fields. -/
theorem c7_witness :
    getToolModel { id := .vStr "m1", type := "tool_result", content := some (.vStr "plain") } "T" =
      { id := .vStr "m1", type := "tool_result", tag := none, attrs := none,
        result := none, error := none, logs := none, path := none,
        workspace := none, mode := none, created_at := .vStr "T" } ∧
    (getToolModel
        { id := .vStr "m2", type := "tool_result",
          _content := some (.vObj (.fcons "result"
            (.vObj (.fcons "logs" (.vStr "L") (.fcons "path" (.vStr "P")
              (.fcons "workspace" (.vStr "W") (.fcons "mode" (.vStr "daytona") .fnil))))) .fnil)) }
        "T").logs = some (.vStr "L") :=
  ⟨c7_unresolved_fields_are_undefined.1
      { id := .vStr "m1", type := "tool_result", content := some (.vStr "plain") } "T"
      rfl rfl rfl rfl rfl rfl rfl,
   (c7_unresolved_fields_are_undefined.2 (.vStr "m2") "tool_result" "T"
      (.vStr "L") (.vStr "P") (.vStr "W") (.vStr "daytona")).1⟩

end Iris
